import Mathlib

/-
Shallow embedding of the CHIP-8 emulator core in src/chip8.c and proofs about
its specified behaviour.  Machine bytes and words are modelled as Nat with
explicit reductions modulo 256 / 65536 where the C code relies on uint8_t /
uint16_t wraparound.  Arrays (ram, display, V) are modelled as total functions
from Nat updated pointwise; the 12-entry call stack is modelled as a list of
pushed return addresses together with a fault flag that records the moment the
C code would perform an out-of-bounds stack access (undefined behaviour in C).
The field spriteReads is a trace of the ram addresses the sprite-draw loop
reads, so that out-of-range sprite fetches are observable in the model.
-/

/-- Pointwise update of a function, modelling a store into a C array. -/
def updFn {α : Type} (f : Nat → α) (i : Nat) (v : α) : Nat → α :=
  fun a => if a = i then v else f a

/-- Decoded instruction fields, mirroring instruction_t in chip8.c. -/
structure Instruction where
  opcode : Nat
  NNN : Nat
  NN : Nat
  N : Nat
  X : Nat
  Y : Nat

/-- Field extraction of emulate_instruction (chip8.c lines 339 to 343). -/
def decode (op : Nat) : Instruction :=
  { opcode := op
    NNN := op &&& 0xFFF
    NN := op &&& 0xFF
    N := op &&& 0xF
    X := (op >>> 8) &&& 0xF
    Y := (op >>> 4) &&& 0xF }

/-- Machine state, mirroring chip8_t in chip8.c.  The run state enum QUIT,
RUNNING, PAUSED is encoded as 0, 1, 2.  The transient inst field and the
never-touched timers and keypad are omitted. -/
structure Chip8 where
  state : Nat
  ram : Nat → Nat
  display : Nat → Bool
  stack : List Nat
  stackFault : Bool
  V : Nat → Nat
  I : Nat
  PC : Nat
  spriteReads : List Nat

/-- Result of the two sprite-draw loops: final display, final collision flag
value, and the trace of ram addresses read as sprite row bytes. -/
structure DrawOut where
  disp : Nat → Bool
  vf : Nat
  reads : List Nat

/-- Inner loop of the DXYN opcode (chip8.c lines 411 to 425): one sprite row.
The first argument counts remaining bit positions, so with k + 1 remaining the
current bit index is k; the loop starts at 8 remaining, bit index 7, and walks
from most significant to least significant bit.  After drawing one cell the
column is incremented and the row is abandoned once the column reaches 64. -/
def drawRowBits (sprite y : Nat) : Nat → Nat → (Nat → Bool) → Nat → (Nat → Bool) × Nat
  | 0, _, d, vf => (d, vf)
  | k + 1, x, d, vf =>
    let idx := y * 64 + x
    let sbit := Nat.testBit sprite k
    let vf2 := if sbit && d idx then 1 else vf
    let d2 := updFn d idx (xor (d idx) sbit)
    if x + 1 ≥ 64 then (d2, vf2) else drawRowBits sprite y k (x + 1) d2 vf2

/-- Outer loop of the DXYN opcode (chip8.c lines 406 to 428).  The first Nat
argument counts remaining rows, i is the current row index (source byte is
ram (I + i)), y the current display row.  After each row the display row is
incremented and the sprite is abandoned once it reaches 32. -/
def drawRows (ram : Nat → Nat) (I x0 : Nat) : Nat → Nat → Nat → (Nat → Bool) → Nat → DrawOut
  | 0, _, _, d, vf => { disp := d, vf := vf, reads := [] }
  | rows + 1, i, y, d, vf =>
    let sprite := ram (I + i)
    let p := drawRowBits sprite y 8 x0 d vf
    if y + 1 ≥ 32 then { disp := p.1, vf := p.2, reads := [I + i] }
    else
      let rest := drawRows ram I x0 rows (i + 1) (y + 1) p.1 p.2
      { disp := rest.disp, vf := rest.vf, reads := (I + i) :: rest.reads }

/-- Opcode dispatch of emulate_instruction (chip8.c lines 350 to 434), applied
to the state whose PC has already been advanced past the fetched opcode.
The case 0x2 with a full stack and the case 0x0 0xEE with an empty stack are
the out-of-bounds stack accesses of the C code (undefined behaviour there);
the model records them in stackFault and otherwise leaves the stack alone. -/
def execInstr (inst : Instruction) (s : Chip8) : Chip8 :=
  if (inst.opcode >>> 12) &&& 0xF = 0 then
    if inst.NN = 0xE0 then
      { s with display := fun _ => false }
    else if inst.NN = 0xEE then
      match s.stack.getLast? with
      | some a => { s with PC := a, stack := s.stack.dropLast }
      | none => { s with stackFault := true }
    else s
  else if (inst.opcode >>> 12) &&& 0xF = 1 then
    { s with PC := inst.NNN }
  else if (inst.opcode >>> 12) &&& 0xF = 2 then
    if s.stack.length < 12 then
      { s with stack := s.stack ++ [s.PC], PC := inst.NNN }
    else
      { s with stackFault := true, PC := inst.NNN }
  else if (inst.opcode >>> 12) &&& 0xF = 6 then
    { s with V := updFn s.V inst.X inst.NN }
  else if (inst.opcode >>> 12) &&& 0xF = 7 then
    { s with V := updFn s.V inst.X ((s.V inst.X + inst.NN) % 256) }
  else if (inst.opcode >>> 12) &&& 0xF = 10 then
    { s with I := inst.NNN }
  else if (inst.opcode >>> 12) &&& 0xF = 13 then
    let x0 := s.V inst.X % 64
    let y0 := s.V inst.Y % 32
    let out := drawRows s.ram s.I x0 inst.N 0 y0 s.display 0
    { s with display := out.disp, V := updFn s.V 15 out.vf, spriteReads := out.reads }
  else s

/-- Opcode fetch (chip8.c line 335): big-endian 16-bit word at PC. -/
def fetch16 (s : Chip8) : Nat :=
  (s.ram s.PC) <<< 8 ||| s.ram (s.PC + 1)

/-- One full cycle of emulate_instruction: fetch, advance PC by 2 with
uint16_t wraparound (chip8.c line 336), decode, execute. -/
def execCycle (s : Chip8) : Chip8 :=
  execInstr (decode (fetch16 s)) { s with PC := (s.PC + 2) % 65536 }

/-- Iterated cycles, modelling the driver loop running n instructions. -/
def runCycles : Nat → Chip8 → Chip8
  | 0, s => s
  | n + 1, s => runCycles n (execCycle s)

/-- The 80-byte font table of init_chip8 (chip8.c lines 107 to 124). -/
def fontData : List Nat :=
  [0xF0, 0x90, 0x90, 0x90, 0xF0,
   0x20, 0x60, 0x20, 0x20, 0x70,
   0xF0, 0x10, 0xF0, 0x80, 0xF0,
   0xF0, 0x10, 0xF0, 0x10, 0xF0,
   0x90, 0x90, 0xF0, 0x10, 0x10,
   0xF0, 0x80, 0xF0, 0x10, 0xF0,
   0xF0, 0x80, 0xF0, 0x90, 0xF0,
   0xF0, 0x10, 0x20, 0x40, 0x40,
   0xF0, 0x90, 0xF0, 0x90, 0xF0,
   0xF0, 0x90, 0xF0, 0x10, 0xF0,
   0xF0, 0x90, 0xF0, 0x90, 0x90,
   0xE0, 0x90, 0xE0, 0x90, 0xE0,
   0xF0, 0x80, 0x80, 0x80, 0xF0,
   0xE0, 0x90, 0x90, 0x90, 0xE0,
   0xF0, 0x80, 0xF0, 0x80, 0xF0,
   0xF0, 0x80, 0xF0, 0x80, 0x80]

/-- The memcpy of the font into ram addresses 0 to 79 (chip8.c line 127). -/
def loadFont (ram : Nat → Nat) : Nat → Nat :=
  fun a => if a < 80 then fontData.getD a 0 else ram a

/-- The fread of the program image into ram starting at 512 (chip8.c 147). -/
def loadBytes (ram : Nat → Nat) (rom : List Nat) : Nat → Nat :=
  fun a => if 512 ≤ a ∧ a < 512 + rom.length then rom.getD (a - 512) 0 else ram a

/-- init_chip8 (chip8.c lines 105 to 161) acting on a caller-supplied state:
the font is copied first, then the image size is checked against
4096 - 512 = 3584, and only on success are the image, run state, PC and the
stack pointer set.  Returns the success flag and the resulting state. -/
def init_chip8 (c : Chip8) (rom : List Nat) : Bool × Chip8 :=
  let c1 : Chip8 := { c with ram := loadFont c.ram }
  if rom.length > 3584 then (false, c1)
  else
    (true, { c1 with ram := loadBytes c1.ram rom, state := 1, PC := 512, stack := [] })

/-- The all-zero machine state, modelling the chip8 = {0} of main. -/
def zeroChip8 : Chip8 :=
  { state := 0
    ram := fun _ => 0
    display := fun _ => false
    stack := []
    stackFault := false
    V := fun _ => 0
    I := 0
    PC := 0
    spriteReads := [] }

/-- Machine state right after a successful construction from a program image. -/
def initState (rom : List Nat) : Chip8 :=
  (init_chip8 zeroChip8 rom).2

/-- Hand-built witness state: D011 at PC 512 drawing the sprite byte 0x80
stored at address 518 onto an all-off display. -/
def drawOffState : Chip8 :=
  { state := 1
    ram := fun a =>
      if a = 512 then 0xD0 else if a = 513 then 0x11 else if a = 518 then 0x80 else 0
    display := fun _ => false
    stack := []
    stackFault := false
    V := fun _ => 0
    I := 518
    PC := 512
    spriteReads := [] }

/-- The same draw aimed at a display whose cell 0 is already on. -/
def drawOnState : Chip8 :=
  { drawOffState with display := fun idx => idx == 0 }

/-- Hand-built witness state: D011 drawing the byte 0xFF from column 60. -/
def drawClipState : Chip8 :=
  { drawOffState with
    ram := fun a =>
      if a = 512 then 0xD0 else if a = 513 then 0x11 else if a = 518 then 0xFF else 0
    V := fun v => if v = 0 then 60 else 0 }

/-- Hand-built witness state: 2206 at PC 512 with 00EE at the call target. -/
def callRetState : Chip8 :=
  { drawOffState with
    ram := fun a =>
      if a = 512 then 0x22 else if a = 513 then 0x06
      else if a = 518 then 0x00 else if a = 519 then 0xEE else 0 }

/-- Hand-built witness state: 700A at PC 512 with register 0 holding 250. -/
def addImmState : Chip8 :=
  { drawOffState with
    ram := fun a => if a = 512 then 0x70 else if a = 513 then 0x0A else 0
    V := fun v => if v = 0 then 250 else 0 }

/-- Hand-built witness state: the unimplemented opcode 8123 at PC 512. -/
def noopState : Chip8 :=
  { drawOffState with
    ram := fun a => if a = 512 then 0x81 else if a = 513 then 0x23 else 0 }

/-- Hand-built witness state: 1200 at PC 512, a jump to the even address 512. -/
def jumpState : Chip8 :=
  { drawOffState with
    ram := fun a => if a = 512 then 0x12 else 0 }

/-- Hand-built witness state: 2200 at PC 512 with the stack already full. -/
def fullStackState : Chip8 :=
  { drawOffState with
    ram := fun a => if a = 512 then 0x22 else 0
    stack := List.replicate 12 514 }

@[simp] lemma decode_opcode (op : Nat) : (decode op).opcode = op := rfl

@[simp] lemma decode_NNN (op : Nat) : (decode op).NNN = op &&& 0xFFF := rfl

@[simp] lemma decode_NN (op : Nat) : (decode op).NN = op &&& 0xFF := rfl

@[simp] lemma decode_N (op : Nat) : (decode op).N = op &&& 0xF := rfl

@[simp] lemma decode_X (op : Nat) : (decode op).X = (op >>> 8) &&& 0xF := rfl

@[simp] lemma decode_Y (op : Nat) : (decode op).Y = (op >>> 4) &&& 0xF := rfl

lemma shiftLeft_or_eq (hi lo : Nat) (hlo : lo < 256) : hi <<< 8 ||| lo = hi * 256 + lo := by
  have h1 : hi <<< 8 = 2 ^ 8 * hi := by
    rw [Nat.shiftLeft_eq]; ring
  have hb : lo < 2 ^ 8 := by norm_num [hlo]
  rw [h1, ← Nat.mul_add_lt_is_or hb hi]
  ring

/-- Claim C4: decoding the big-endian opcode built from the byte at PC (high)
and the byte at PC + 1 (low) is total and yields exactly the specified
bit fields, stated here in arithmetic form over the two bytes. -/
theorem C4_decode_fields (hi lo : Nat) (_hhi : hi < 256) (hlo : lo < 256) :
    (decode (hi <<< 8 ||| lo)).opcode = hi * 256 + lo
  ∧ (decode (hi <<< 8 ||| lo)).NNN = (hi % 16) * 256 + lo
  ∧ (decode (hi <<< 8 ||| lo)).NN = lo
  ∧ (decode (hi <<< 8 ||| lo)).N = lo % 16
  ∧ (decode (hi <<< 8 ||| lo)).X = hi % 16
  ∧ (decode (hi <<< 8 ||| lo)).Y = lo / 16 := by
  rw [shiftLeft_or_eq hi lo hlo]
  have e12 : (0xFFF : Nat) = 2 ^ 12 - 1 := by norm_num
  have e8 : (0xFF : Nat) = 2 ^ 8 - 1 := by norm_num
  have e4 : (0xF : Nat) = 2 ^ 4 - 1 := by norm_num
  have p12 : (2 : Nat) ^ 12 = 4096 := by norm_num
  have p8 : (2 : Nat) ^ 8 = 256 := by norm_num
  have p4 : (2 : Nat) ^ 4 = 16 := by norm_num
  refine ⟨rfl, ?_, ?_, ?_, ?_, ?_⟩
  · rw [decode_NNN, e12, Nat.and_pow_two_sub_one_eq_mod, p12]
    omega
  · rw [decode_NN, e8, Nat.and_pow_two_sub_one_eq_mod, p8]
    omega
  · rw [decode_N, e4, Nat.and_pow_two_sub_one_eq_mod, p4]
    omega
  · rw [decode_X, e4, Nat.and_pow_two_sub_one_eq_mod, p4,
      Nat.shiftRight_eq_div_pow, p8]
    omega
  · rw [decode_Y, e4, Nat.and_pow_two_sub_one_eq_mod, p4,
      Nat.shiftRight_eq_div_pow, p4]
    omega

/-- Witness for C4 at the byte pair (0xAB, 0xCD). -/
theorem C4_decode_fields_witness :
    (decode (0xAB <<< 8 ||| 0xCD)).opcode = 0xABCD
  ∧ (decode (0xAB <<< 8 ||| 0xCD)).NNN = 0xBCD
  ∧ (decode (0xAB <<< 8 ||| 0xCD)).NN = 0xCD
  ∧ (decode (0xAB <<< 8 ||| 0xCD)).N = 0xD
  ∧ (decode (0xAB <<< 8 ||| 0xCD)).X = 0xB
  ∧ (decode (0xAB <<< 8 ||| 0xCD)).Y = 0xC := by
  have h := C4_decode_fields 0xAB 0xCD (by norm_num) (by norm_num)
  norm_num at h
  exact h

/-- Claim C5: opcode 7XNN adds NN to register X with 8-bit wraparound and,
when X is not 15, leaves register 15 untouched. -/
theorem C5_add_immediate (s : Chip8) (op : Nat) (hf : fetch16 s = op)
    (ht : (op >>> 12) &&& 0xF = 7) :
    (execCycle s).V ((op >>> 8) &&& 0xF) = (s.V ((op >>> 8) &&& 0xF) + (op &&& 0xFF)) % 256
  ∧ ((op >>> 8) &&& 0xF ≠ 15 → (execCycle s).V 15 = s.V 15) := by
  unfold execCycle execInstr
  rw [hf]
  simp only [decode_opcode, decode_NN, decode_X, ht]
  norm_num [updFn]
  intro hx h
  exact absurd h.symm hx

/-- Witness for C5: the opcode 700A takes register 0 from 250 to
4 = 260 mod 256 and register 15 stays put. -/
theorem C5_add_immediate_witness :
    (execCycle addImmState).V 0 = 4
  ∧ (execCycle addImmState).V 15 = addImmState.V 15 := by
  obtain ⟨h1, h2⟩ := C5_add_immediate addImmState 0x700A (by decide) (by decide)
  have e1 : (0x700A >>> 8) &&& 0xF = 0 := by decide
  have e2 : (0x700A : Nat) &&& 0xFF = 10 := by decide
  rw [e1, e2] at h1
  have hv : addImmState.V 0 = 250 := by decide
  rw [hv] at h1
  norm_num at h1
  rw [e1] at h2
  exact ⟨h1, h2 (by norm_num)⟩

/-- Claim C6: a cycle whose opcode has a top nibble outside the implemented
set, or top nibble 0 with a low byte other than E0 and EE, only advances the
program counter by 2; registers, index register, memory, call stack and
display are untouched (full state equality). -/
theorem C6_unrecognized_noop (s : Chip8) (op : Nat) (hf : fetch16 s = op)
    (hpc : s.PC + 2 < 65536)
    (h1 : (op >>> 12) &&& 0xF ≠ 1) (h2 : (op >>> 12) &&& 0xF ≠ 2)
    (h6 : (op >>> 12) &&& 0xF ≠ 6) (h7 : (op >>> 12) &&& 0xF ≠ 7)
    (hA : (op >>> 12) &&& 0xF ≠ 10) (hD : (op >>> 12) &&& 0xF ≠ 13)
    (h0 : (op >>> 12) &&& 0xF = 0 → op &&& 0xFF ≠ 0xE0 ∧ op &&& 0xFF ≠ 0xEE) :
    execCycle s = { s with PC := s.PC + 2 } := by
  unfold execCycle execInstr
  rw [hf]
  simp only [decode_opcode, decode_NN]
  have hmod : (s.PC + 2) % 65536 = s.PC + 2 := Nat.mod_eq_of_lt hpc
  by_cases hz : (op >>> 12) &&& 0xF = 0
  · obtain ⟨hE0, hEE⟩ := h0 hz
    simp [hz, hE0, hEE, hmod]
  · simp [hz, h1, h2, h6, h7, hA, hD, hmod]

/-- Witness for C6 at opcode 0x8123 (top nibble 8, unimplemented). -/
theorem C6_unrecognized_noop_witness :
    execCycle noopState = { noopState with PC := noopState.PC + 2 } := by
  exact C6_unrecognized_noop noopState 0x8123 (by decide) (by decide)
    (by decide) (by decide) (by decide) (by decide) (by decide) (by decide)
    (fun h => absurd h (by decide))

/-- Claim C3: a 2NNN cycle from PC = p (stack depth within capacity) followed
by a 00EE cycle brings the program counter back to p + 2, the address right
after the call instruction. -/
theorem C3_call_return (s : Chip8) (op : Nat) (hf : fetch16 s = op)
    (ht : (op >>> 12) &&& 0xF = 2) (hdepth : s.stack.length < 12)
    (hpc : s.PC + 2 < 65536)
    (hret : fetch16 (execCycle s) = 0x00EE) :
    (execCycle (execCycle s)).PC = s.PC + 2 := by
  have hmod : (s.PC + 2) % 65536 = s.PC + 2 := Nat.mod_eq_of_lt hpc
  have hs1 : execCycle s
      = { s with PC := op &&& 0xFFF, stack := s.stack ++ [s.PC + 2] } := by
    unfold execCycle execInstr
    rw [hf]
    simp [decode_opcode, decode_NNN, ht, hdepth, hmod]
  rw [hs1] at hret
  rw [hs1]
  unfold execCycle execInstr
  rw [hret]
  norm_num [List.getLast?_concat]
  have e0 : (238 : Nat) >>> 12 &&& 15 = 0 := by decide
  have eE0 : (238 : Nat) &&& 255 = 238 := by decide
  rw [e0, eE0]
  norm_num

/-- Witness for C3: 2206 at 512 calling address 518 where 00EE returns. -/
theorem C3_call_return_witness :
    (execCycle (execCycle callRetState)).PC = callRetState.PC + 2 :=
  C3_call_return callRetState 0x2206
    (by decide) (by decide) (by decide) (by decide) (by decide)

/-- Claim C8: neither stack operation checks bounds, so the out-of-bounds
branch of the embedded pop is taken by a 00EE cycle on an empty stack, and the
out-of-bounds branch of the embedded push is taken by a 2NNN cycle on a stack
already holding 12 return addresses. -/
theorem C8_stack_oob :
    (∀ (s : Chip8) (op : Nat), fetch16 s = op → (op >>> 12) &&& 0xF = 0 →
      op &&& 0xFF = 0xEE → s.stack = [] → s.stackFault = false →
      (execCycle s).stackFault = true)
  ∧ (∀ (s : Chip8) (op : Nat), fetch16 s = op → (op >>> 12) &&& 0xF = 2 →
      s.stack.length = 12 → s.stackFault = false →
      (execCycle s).stackFault = true) := by
  constructor
  · intro s op hf ht hnn hempty _
    unfold execCycle execInstr
    rw [hf]
    simp [decode_opcode, decode_NN, ht, hnn, hempty]
  · intro s op hf ht hlen _
    unfold execCycle execInstr
    rw [hf]
    simp [decode_opcode, decode_NNN, ht, hlen]

/-- Witness for C8: 00EE as the very first instruction after construction
underflows, and a 2200 call on a stack already holding 12 return addresses
overflows. -/
theorem C8_stack_oob_witness :
    (execCycle (initState [0x00, 0xEE])).stackFault = true
  ∧ (execCycle fullStackState).stackFault = true := by
  constructor
  · exact C8_stack_oob.1 (initState [0x00, 0xEE]) 0x00EE
      (by decide) (by decide) (by decide) (by decide) (by decide)
  · exact C8_stack_oob.2 fullStackState 0x2200
      (by decide) (by decide) (by decide) (by decide)

/-- Counterexample for C9: constructing from a 3585-byte image is rejected,
yet memory has already been mutated before the rejection: the font byte 0xF0
now sits at address 0, which held 0 in the zero-initialised machine.  So the
claim that no part of the machine state is modified before the rejection is
reported does not hold of init_chip8, which copies the font before the size
check. -/
theorem C9_oversized_cex :
    (init_chip8 zeroChip8 (List.replicate 3585 0)).1 = false
  ∧ (init_chip8 zeroChip8 (List.replicate 3585 0)).2.ram 0 = 0xF0
  ∧ zeroChip8.ram 0 = 0 := by
  have hgt : (List.replicate 3585 (0 : Nat)).length > 3584 := by
    simp only [List.length_replicate]
    norm_num
  refine ⟨?_, ?_, rfl⟩
  · simp only [init_chip8]
    rw [if_pos hgt]
  · simp only [init_chip8]
    rw [if_pos hgt]
    simp [loadFont, fontData]

/-- Claim C9 as amended: an oversized image (longer than 3584 bytes) is
rejected, no program byte is written, and the registers, PC, stack, display
and run state are untouched; the only mutation that precedes the rejection is
the font copy into memory addresses 0 to 79. -/
theorem C9_oversized_rejected (c : Chip8) (rom : List Nat)
    (h : rom.length > 3584) :
    (init_chip8 c rom).1 = false
  ∧ (init_chip8 c rom).2 = { c with ram := loadFont c.ram }
  ∧ (∀ a, 80 ≤ a → (init_chip8 c rom).2.ram a = c.ram a) := by
  refine ⟨?_, ?_, ?_⟩
  · simp [init_chip8, h]
  · simp [init_chip8, h]
  · intro a ha
    simp [init_chip8, h, loadFont]
    omega

/-- Witness for C9 at the zero machine and a 3585-byte image. -/
theorem C9_oversized_rejected_witness :
    (init_chip8 zeroChip8 (List.replicate 3585 0)).1 = false
  ∧ (init_chip8 zeroChip8 (List.replicate 3585 0)).2
      = { zeroChip8 with ram := loadFont zeroChip8.ram }
  ∧ (∀ a, 80 ≤ a →
      (init_chip8 zeroChip8 (List.replicate 3585 0)).2.ram a = zeroChip8.ram a) :=
  C9_oversized_rejected zeroChip8 (List.replicate 3585 0)
    (by simp only [List.length_replicate]; norm_num)

/-- Claim C10: the sprite-source read of DXYN is neither bounds-checked nor
reduced modulo 4096.  Concretely, after AFFF sets I to 4095, the cycle D012
(two rows, start row 0) reads sprite bytes at the addresses 4095 and 4096,
and 4096 lies outside the 4096-byte memory image. -/
theorem C10_sprite_read_oob :
    (runCycles 1 (initState [0xAF, 0xFF, 0xD0, 0x12])).I = 4095
  ∧ (runCycles 2 (initState [0xAF, 0xFF, 0xD0, 0x12])).spriteReads = [4095, 4096]
  ∧ 4095 < 4096 := by
  refine ⟨by decide, by decide, by norm_num⟩

/-- Counterexample for C7: the claimed reachable-state invariant that the
program counter is always even and at most 4094 before a fetch fails on the
code, because 1NNN installs NNN verbatim: from the initial state the single
instruction 1101 jumps to the odd address 257. -/
theorem C7_pc_invariant_cex :
    (runCycles 1 (initState [0x11, 0x01])).PC = 257 ∧ ¬ (257 % 2 = 0) := by
  refine ⟨by decide, by norm_num⟩

/-- Claim C7 as amended: the invariant is preserved cycle by cycle only under
side conditions the code does not enforce.  If the PC is even and at most 4092
before the fetch, the fetched jump or call target (when the opcode is 1NNN or
2NNN) is even, and a fetched 00EE pops an address that is even and at most
4094, then the PC before the next fetch is again even and lies in [0, 4094].
Unconditionally the claimed invariant is false, see the counterexample. -/
theorem C7_pc_step_preserved (s : Chip8) (op : Nat) (hf : fetch16 s = op)
    (heven : s.PC % 2 = 0) (hle : s.PC ≤ 4092)
    (hjmp : (op >>> 12) &&& 0xF = 1 → (op &&& 0xFFF) % 2 = 0)
    (hcall : (op >>> 12) &&& 0xF = 2 → (op &&& 0xFFF) % 2 = 0)
    (hret : (op >>> 12) &&& 0xF = 0 → op &&& 0xFF = 0xEE →
      ∃ a, s.stack.getLast? = some a ∧ a % 2 = 0 ∧ a ≤ 4094) :
    (execCycle s).PC % 2 = 0 ∧ (execCycle s).PC ≤ 4094 := by
  have hNNN : op &&& 0xFFF ≤ 4095 := Nat.and_le_right
  have hmod : (s.PC + 2) % 65536 = s.PC + 2 := Nat.mod_eq_of_lt (by omega)
  unfold execCycle execInstr
  rw [hf]
  simp only [decode_opcode, decode_NN, decode_NNN]
  by_cases h0 : (op >>> 12) &&& 0xF = 0
  · by_cases hE0 : op &&& 0xFF = 0xE0
    · simp [h0, hE0, hmod]
      omega
    · by_cases hEE : op &&& 0xFF = 0xEE
      · obtain ⟨a, ha, hae, hal⟩ := hret h0 hEE
        simp [h0, hE0, hEE, ha]
        exact ⟨hae, hal⟩
      · simp [h0, hE0, hEE, hmod]
        omega
  · by_cases h1 : (op >>> 12) &&& 0xF = 1
    · simp [h0, h1]
      have := hjmp h1
      omega
    · by_cases h2 : (op >>> 12) &&& 0xF = 2
      · have := hcall h2
        by_cases hlen : s.stack.length < 12 <;> simp [h0, h1, h2, hlen] <;> omega
      · by_cases h6 : (op >>> 12) &&& 0xF = 6
        · simp [h0, h1, h2, h6, hmod]
          omega
        · by_cases h7 : (op >>> 12) &&& 0xF = 7
          · simp [h0, h1, h2, h6, h7, hmod]
            omega
          · by_cases hA : (op >>> 12) &&& 0xF = 10
            · simp [h0, h1, h2, h6, h7, hA, hmod]
              omega
            · by_cases hD : (op >>> 12) &&& 0xF = 13
              · simp [h0, h1, h2, h6, h7, hA, hD, hmod]
                omega
              · simp [h0, h1, h2, h6, h7, hA, hD, hmod]
                omega

/-- Witness for the amended C7: a jump to the even in-range address 512. -/
theorem C7_pc_step_preserved_witness :
    (execCycle jumpState).PC % 2 = 0 ∧ (execCycle jumpState).PC ≤ 4094 :=
  C7_pc_step_preserved jumpState 0x1200 (by decide) (by decide)
    (by decide) (fun _ => by decide) (fun _ => by decide)
    (fun h => absurd h (by decide))

/-- Collision test for one sprite row, mirroring the inner loop of DXYN: with
k + 1 bit positions remaining at column x, the current bit index is k, and the
row is abandoned once the column reaches 64.  Unlike the drawing loop, this
test reads a fixed display d. -/
def rowHitB (sprite y : Nat) : Nat → Nat → (Nat → Bool) → Bool
  | 0, _, _ => false
  | k + 1, x, d =>
    (Nat.testBit sprite k && d (y * 64 + x))
      || (if x + 1 ≥ 64 then false else rowHitB sprite y k (x + 1) d)

/-- Cells not targeted by the remaining bits of the current row are unchanged
by the inner draw loop. -/
lemma drawRowBits_disp (sprite y : Nat) :
    ∀ (k x : Nat) (d : Nat → Bool) (vf : Nat) (idx : Nat), x < 64 →
      (∀ t, t < k → x + t < 64 → idx ≠ y * 64 + (x + t)) →
      (drawRowBits sprite y k x d vf).1 idx = d idx := by
  intro k
  induction k with
  | zero => intro x d vf idx _ _; rfl
  | succ k ih =>
    intro x d vf idx hx hidx
    have hne : idx ≠ y * 64 + x := by
      have := hidx 0 (by omega) (by omega)
      simpa using this
    by_cases hbreak : x + 1 ≥ 64
    · simp [drawRowBits, hbreak, updFn, hne]
    · simp only [drawRowBits, if_neg hbreak]
      rw [ih (x + 1) _ _ idx (by omega)
        (fun t ht hxt => by
          have h2 := hidx (t + 1) (by omega) (by omega)
          have h3 : x + 1 + t = x + (t + 1) := by omega
          rw [h3]
          exact h2)]
      simp [updFn, hne]

/-- The collision flag computed by the inner draw loop is 1 exactly when the
row test fires on the original display, and is otherwise passed through. -/
lemma drawRowBits_vf (sprite y : Nat) :
    ∀ (k x : Nat) (d d0 : Nat → Bool) (vf : Nat), x < 64 →
      (∀ c, x ≤ c → c < 64 → d (y * 64 + c) = d0 (y * 64 + c)) →
      (drawRowBits sprite y k x d vf).2 = if rowHitB sprite y k x d0 then 1 else vf := by
  intro k
  induction k with
  | zero =>
    intro x d d0 vf hx hagree
    simp [drawRowBits, rowHitB]
  | succ k ih =>
    intro x d d0 vf hx hagree
    have hx0 : d (y * 64 + x) = d0 (y * 64 + x) := hagree x (by omega) hx
    by_cases hbreak : x + 1 ≥ 64
    · simp only [drawRowBits, rowHitB, if_pos hbreak, hx0]
      cases hbit : Nat.testBit sprite k && d0 (y * 64 + x) <;> simp [hbit]
    · simp only [drawRowBits, rowHitB, if_neg hbreak]
      have hagr2 : ∀ c, x + 1 ≤ c → c < 64 →
          updFn d (y * 64 + x) (xor (d (y * 64 + x)) (Nat.testBit sprite k)) (y * 64 + c)
            = d0 (y * 64 + c) := by
        intro c hc hc64
        have hne : y * 64 + c ≠ y * 64 + x := by omega
        simp only [updFn, if_neg hne]
        exact hagree c (by omega) hc64
      rw [ih (x + 1) _ d0 _ (by omega) hagr2, hx0]
      cases hbit : Nat.testBit sprite k && d0 (y * 64 + x) <;>
        cases hrec : rowHitB sprite y k (x + 1) d0 <;> simp [hbit, hrec]

/-- Collision test for the whole sprite, mirroring the outer loop of DXYN:
row r of the remaining rows uses sprite byte ram (I + i + r), the test stops
after the display row reaches 31, and every row is tested against one fixed
display d. -/
def spriteHitB (ram : Nat → Nat) (I x0 : Nat) : Nat → Nat → Nat → (Nat → Bool) → Bool
  | 0, _, _, _ => false
  | rows + 1, i, y, d =>
    rowHitB (ram (I + i)) y 8 x0 d
      || (if y + 1 ≥ 32 then false else spriteHitB ram I x0 rows (i + 1) (y + 1) d)

/-- Cells not targeted by any remaining row of the sprite are unchanged by
the outer draw loop. -/
lemma drawRows_disp (ram : Nat → Nat) (I x0 : Nat) :
    ∀ (rows i y : Nat) (d : Nat → Bool) (vf : Nat) (idx : Nat), x0 < 64 → y < 32 →
      (∀ r t, r < rows → y + r < 32 → t < 8 → x0 + t < 64 →
        idx ≠ (y + r) * 64 + (x0 + t)) →
      (drawRows ram I x0 rows i y d vf).disp idx = d idx := by
  intro rows
  induction rows with
  | zero => intro i y d vf idx _ _ _; rfl
  | succ rows ih =>
    intro i y d vf idx hx hy hidx
    have hrow0 : ∀ t, t < 8 → x0 + t < 64 → idx ≠ y * 64 + (x0 + t) := by
      intro t ht hxt
      have := hidx 0 t (by omega) (by omega) ht hxt
      simpa using this
    by_cases hbreak : y + 1 ≥ 32
    · simp only [drawRows, if_pos hbreak]
      exact drawRowBits_disp (ram (I + i)) y 8 x0 d vf idx hx hrow0
    · simp only [drawRows, if_neg hbreak]
      rw [ih (i + 1) (y + 1) _ _ idx hx (by omega)
        (fun r t hr hyr ht hxt => by
          have h2 := hidx (r + 1) t (by omega) (by omega) ht hxt
          have h3 : y + 1 + r = y + (r + 1) := by omega
          rw [h3]
          exact h2)]
      exact drawRowBits_disp (ram (I + i)) y 8 x0 d vf idx hx hrow0

/-- The collision flag computed by the outer draw loop is 1 exactly when the
sprite test fires on the original display, and is otherwise passed through. -/
lemma drawRows_vf (ram : Nat → Nat) (I x0 : Nat) :
    ∀ (rows i y : Nat) (d d0 : Nat → Bool) (vf : Nat), x0 < 64 → y < 32 →
      (∀ r c, y ≤ r → r < 32 → c < 64 → d (r * 64 + c) = d0 (r * 64 + c)) →
      (drawRows ram I x0 rows i y d vf).vf
        = if spriteHitB ram I x0 rows i y d0 then 1 else vf := by
  intro rows
  induction rows with
  | zero =>
    intro i y d d0 vf hx hy hagree
    simp [drawRows, spriteHitB]
  | succ rows ih =>
    intro i y d d0 vf hx hy hagree
    have hp2 := drawRowBits_vf (ram (I + i)) y 8 x0 d d0 vf hx
      (fun c hc hc64 => hagree y c (by omega) hy hc64)
    by_cases hbreak : y + 1 ≥ 32
    · simp only [drawRows, spriteHitB, if_pos hbreak]
      rw [hp2]
      cases h : rowHitB (ram (I + i)) y 8 x0 d0 <;> simp [h]
    · simp only [drawRows, spriteHitB, if_neg hbreak]
      have hagr2 : ∀ r c, y + 1 ≤ r → r < 32 → c < 64 →
          (drawRowBits (ram (I + i)) y 8 x0 d vf).1 (r * 64 + c) = d0 (r * 64 + c) := by
        intro r c hr hr32 hc64
        rw [drawRowBits_disp (ram (I + i)) y 8 x0 d vf _ hx
          (fun t ht hxt => by omega)]
        exact hagree r c (by omega) hr32 hc64
      rw [ih (i + 1) (y + 1) _ d0 _ hx (by omega) hagr2, hp2]
      cases h1 : rowHitB (ram (I + i)) y 8 x0 d0 <;>
        cases h2 : spriteHitB ram I x0 rows (i + 1) (y + 1) d0 <;> simp [h1, h2]

/-- The row collision test fires exactly when some processed bit position t
(bit index k - 1 - t, column x + t, clipped at column 64) is a set sprite bit
over an on display cell. -/
lemma rowHitB_iff (sprite y : Nat) :
    ∀ (k x : Nat) (d : Nat → Bool), x < 64 →
      (rowHitB sprite y k x d = true ↔
        ∃ t, t < k ∧ x + t < 64 ∧ Nat.testBit sprite (k - 1 - t) = true
          ∧ d (y * 64 + (x + t)) = true) := by
  intro k
  induction k with
  | zero => intro x d hx; simp [rowHitB]
  | succ k ih =>
    intro x d hx
    by_cases hbreak : x + 1 ≥ 64
    · simp only [rowHitB, if_pos hbreak, Bool.or_false, Bool.and_eq_true]
      constructor
      · rintro ⟨hbit, hd⟩
        exact ⟨0, by omega, by omega, by simpa using hbit, by simpa using hd⟩
      · rintro ⟨t, ht, hxt, hbit, hd⟩
        have ht0 : t = 0 := by omega
        subst ht0
        exact ⟨by simpa using hbit, by simpa using hd⟩
    · simp only [rowHitB, if_neg hbreak, Bool.or_eq_true, Bool.and_eq_true]
      rw [ih (x + 1) d (by omega)]
      constructor
      · rintro (⟨hbit, hd⟩ | ⟨t, ht, hxt, hbit, hd⟩)
        · exact ⟨0, by omega, by omega, by simpa using hbit, by simpa using hd⟩
        · refine ⟨t + 1, by omega, by omega, ?_, ?_⟩
          · have h3 : k + 1 - 1 - (t + 1) = k - 1 - t := by omega
            rw [h3]
            exact hbit
          · have h3 : x + (t + 1) = x + 1 + t := by omega
            rw [h3]
            exact hd
      · rintro ⟨t, ht, hxt, hbit, hd⟩
        cases t with
        | zero => exact Or.inl ⟨by simpa using hbit, by simpa using hd⟩
        | succ t =>
          refine Or.inr ⟨t, by omega, by omega, ?_, ?_⟩
          · have h3 : k - 1 - t = k + 1 - 1 - (t + 1) := by omega
            rw [h3]
            exact hbit
          · have h3 : x + 1 + t = x + (t + 1) := by omega
            rw [h3]
            exact hd

/-- The sprite collision test fires exactly when some processed row r (clipped
at display row 32) and bit position t (clipped at column 64) put a set sprite
bit over an on display cell. -/
lemma spriteHitB_iff (ram : Nat → Nat) (I x0 : Nat) :
    ∀ (rows i y : Nat) (d : Nat → Bool), x0 < 64 → y < 32 →
      (spriteHitB ram I x0 rows i y d = true ↔
        ∃ r, r < rows ∧ y + r < 32 ∧ ∃ t, t < 8 ∧ x0 + t < 64
          ∧ Nat.testBit (ram (I + i + r)) (7 - t) = true
          ∧ d ((y + r) * 64 + (x0 + t)) = true) := by
  intro rows
  induction rows with
  | zero => intro i y d hx hy; simp [spriteHitB]
  | succ rows ih =>
    intro i y d hx hy
    have hrow := rowHitB_iff (ram (I + i)) y 8 x0 d hx
    by_cases hbreak : y + 1 ≥ 32
    · simp only [spriteHitB, if_pos hbreak, Bool.or_false]
      rw [hrow]
      constructor
      · rintro ⟨t, ht, hxt, hbit, hd⟩
        exact ⟨0, by omega, by omega, t, ht, hxt, by simpa using hbit, by simpa using hd⟩
      · rintro ⟨r, hr, hyr, t, ht, hxt, hbit, hd⟩
        have hr0 : r = 0 := by omega
        subst hr0
        exact ⟨t, ht, hxt, by simpa using hbit, by simpa using hd⟩
    · simp only [spriteHitB, if_neg hbreak, Bool.or_eq_true]
      rw [hrow, ih (i + 1) (y + 1) d hx (by omega)]
      constructor
      · rintro (⟨t, ht, hxt, hbit, hd⟩ | ⟨r, hr, hyr, t, ht, hxt, hbit, hd⟩)
        · exact ⟨0, by omega, by omega, t, ht, hxt, by simpa using hbit, by simpa using hd⟩
        · refine ⟨r + 1, by omega, by omega, t, ht, hxt, ?_, ?_⟩
          · have h3 : I + i + (r + 1) = I + (i + 1) + r := by omega
            rw [h3]
            exact hbit
          · have h3 : y + (r + 1) = y + 1 + r := by omega
            rw [h3]
            exact hd
      · rintro ⟨r, hr, hyr, t, ht, hxt, hbit, hd⟩
        cases r with
        | zero => exact Or.inl ⟨t, ht, hxt, by simpa using hbit, by simpa using hd⟩
        | succ r =>
          refine Or.inr ⟨r, by omega, by omega, t, ht, hxt, ?_, ?_⟩
          · have h3 : I + (i + 1) + r = I + i + (r + 1) := by omega
            rw [h3]
            exact hbit
          · have h3 : y + 1 + r = y + (r + 1) := by omega
            rw [h3]
            exact hd

/-- Claim C1: a DXYN cycle leaves register 15 equal to 0 or 1, and equal to
1 exactly when some processed set sprite bit targets a display cell that was
already on before the draw (register 15 is first zeroed, so its prior value
never leaks through). -/
theorem C1_dxyn_collision (s : Chip8) (op : Nat) (hf : fetch16 s = op)
    (ht : (op >>> 12) &&& 0xF = 13) :
    ((execCycle s).V 15 = 1 ↔
      ∃ r, r < op &&& 0xF ∧ s.V ((op >>> 4) &&& 0xF) % 32 + r < 32
        ∧ ∃ t, t < 8 ∧ s.V ((op >>> 8) &&& 0xF) % 64 + t < 64
        ∧ Nat.testBit (s.ram (s.I + r)) (7 - t) = true
        ∧ s.display ((s.V ((op >>> 4) &&& 0xF) % 32 + r) * 64
            + (s.V ((op >>> 8) &&& 0xF) % 64 + t)) = true)
  ∧ ((execCycle s).V 15 = 0 ∨ (execCycle s).V 15 = 1) := by
  have hx : s.V ((op >>> 8) &&& 0xF) % 64 < 64 := Nat.mod_lt _ (by omega)
  have hy : s.V ((op >>> 4) &&& 0xF) % 32 < 32 := Nat.mod_lt _ (by omega)
  have hvf : (execCycle s).V 15
      = if spriteHitB s.ram s.I (s.V ((op >>> 8) &&& 0xF) % 64) (op &&& 0xF) 0
          (s.V ((op >>> 4) &&& 0xF) % 32) s.display then 1 else 0 := by
    have hstep : (execCycle s).V 15
        = (drawRows s.ram s.I (s.V ((op >>> 8) &&& 0xF) % 64) (op &&& 0xF) 0
            (s.V ((op >>> 4) &&& 0xF) % 32) s.display 0).vf := by
      unfold execCycle execInstr
      rw [hf]
      simp [decode_opcode, decode_NN, decode_NNN, decode_N, decode_X, decode_Y,
        ht, updFn]
    rw [hstep]
    exact drawRows_vf s.ram s.I (s.V ((op >>> 8) &&& 0xF) % 64) (op &&& 0xF) 0
      (s.V ((op >>> 4) &&& 0xF) % 32) s.display s.display 0 hx hy
      (fun r c _ _ _ => rfl)
  have hiff := spriteHitB_iff s.ram s.I (s.V ((op >>> 8) &&& 0xF) % 64) (op &&& 0xF) 0
    (s.V ((op >>> 4) &&& 0xF) % 32) s.display hx hy
  simp only [Nat.add_zero, Nat.zero_add] at hiff
  rw [hvf]
  by_cases hH : spriteHitB s.ram s.I (s.V ((op >>> 8) &&& 0xF) % 64) (op &&& 0xF) 0
      (s.V ((op >>> 4) &&& 0xF) % 32) s.display = true
  · rw [if_pos hH]
    exact ⟨⟨fun _ => hiff.mp hH, fun _ => rfl⟩, Or.inr rfl⟩
  · rw [if_neg hH]
    exact ⟨⟨fun h01 => absurd h01 (by norm_num), fun hE => absurd (hiff.mpr hE) hH⟩,
      Or.inl rfl⟩

/-- Claim C2: a DXYN cycle only changes display cells at processed sprite
positions: row start + r with r below N and below the bottom edge (row 32),
column start + t with t below 8 and below the right edge (column 64).  In
particular the sprite is clipped at the right and bottom edges and never
wraps around. -/
theorem C2_dxyn_clipped (s : Chip8) (op : Nat) (hf : fetch16 s = op)
    (ht : (op >>> 12) &&& 0xF = 13) :
    ∀ idx, (execCycle s).display idx ≠ s.display idx →
      ∃ r t, r < op &&& 0xF ∧ s.V ((op >>> 4) &&& 0xF) % 32 + r < 32 ∧ t < 8
        ∧ s.V ((op >>> 8) &&& 0xF) % 64 + t < 64
        ∧ idx = (s.V ((op >>> 4) &&& 0xF) % 32 + r) * 64
            + (s.V ((op >>> 8) &&& 0xF) % 64 + t) := by
  intro idx hchanged
  have hx : s.V ((op >>> 8) &&& 0xF) % 64 < 64 := Nat.mod_lt _ (by omega)
  have hy : s.V ((op >>> 4) &&& 0xF) % 32 < 32 := Nat.mod_lt _ (by omega)
  have hstep : (execCycle s).display
      = (drawRows s.ram s.I (s.V ((op >>> 8) &&& 0xF) % 64) (op &&& 0xF) 0
          (s.V ((op >>> 4) &&& 0xF) % 32) s.display 0).disp := by
    unfold execCycle execInstr
    rw [hf]
    simp [decode_opcode, decode_NN, decode_NNN, decode_N, decode_X, decode_Y, ht]
  by_contra hnone
  push_neg at hnone
  apply hchanged
  rw [hstep]
  exact drawRows_disp s.ram s.I (s.V ((op >>> 8) &&& 0xF) % 64) (op &&& 0xF) 0
    (s.V ((op >>> 4) &&& 0xF) % 32) s.display 0 idx hx hy hnone

/-- Witness for C1: drawing the byte 0x80 via D011 onto an on cell sets
register 15 to 1, and the identical draw onto an off cell leaves it 0. -/
theorem C1_dxyn_collision_witness :
    (execCycle drawOnState).V 15 = 1 ∧ (execCycle drawOffState).V 15 = 0 := by
  constructor
  · exact (C1_dxyn_collision drawOnState 0xD011 (by decide) (by decide)).1.mpr
      (by decide)
  · obtain ⟨hiff, h01⟩ := C1_dxyn_collision drawOffState 0xD011 (by decide) (by decide)
    rcases h01 with h0 | h1
    · exact h0
    · exact absurd (hiff.mp h1) (by decide)

/-- Witness for C2: the 0xFF row drawn by D011 at start column 60 leaves
column 0 untouched and turns on column 60. -/
theorem C2_dxyn_clipped_witness :
    (execCycle drawClipState).display 0 = drawClipState.display 0
  ∧ (execCycle drawClipState).display 60 = true := by
  constructor
  · by_contra hch
    obtain ⟨r, t, hr, hyr, ht, hxt, hidx⟩ := C2_dxyn_clipped drawClipState 0xD011
      (by decide) (by decide) 0 hch
    have e1 : drawClipState.V ((0xD011 >>> 4) &&& 0xF) % 32 = 0 := by decide
    have e2 : drawClipState.V ((0xD011 >>> 8) &&& 0xF) % 64 = 60 := by decide
    rw [e1, e2] at hidx
    omega
  · decide
